import Mathlib

/-
  Verification of the game-server core of this repository.

  The C++ sources are shallowly embedded in Lean:
  * doubles become exact rationals (ℚ); all comparisons in the embedded code
    are the same comparisons the source performs, carried out exactly;
  * indexed for-loops become structural recursion carrying the loop index;
  * std::sort by event time becomes List.insertionSort with the relation
    "time is less than or equal" (the source orders events by time; the order
    of equal-time events is unspecified in the source);
  * the process-wide random sources (loot type, loot position) and the loot
    generator output are injected as explicit parameters, mirroring the
    injectable-random design described in the specification.
-/

namespace GameModel

/-! ## Geometry kernel (src/src/geom.h) -/

/-- Position (x, y) in world units; geom.h struct Position. -/
structure Position where
  x : ℚ
  y : ℚ
deriving DecidableEq

/-- Speed (vx, vy); geom.h struct Speed. -/
structure Speed where
  vx : ℚ
  vy : ℚ
deriving DecidableEq

/-- geom.h enum class Direction. -/
inductive Direction where
  | north
  | south
  | west
  | east
deriving DecidableEq

/-- C++ std::round: half away from zero. -/
def cppRound (q : ℚ) : ℤ :=
  if q < 0 then -(Int.floor (-q + 1/2)) else Int.floor (q + 1/2)

/-- geom.h Round6: round(v * 1'000'000.0) / 1'000'000.0. -/
def Round6 (q : ℚ) : ℚ := (cppRound (q * 1000000) : ℚ) / 1000000

/-- geom.h struct MoveResult. -/
structure MoveResult where
  position : Position
  hit_boundary : Bool
deriving DecidableEq

/-- geom.h struct Loot (world item and bag item share this type). -/
structure Loot where
  id : Nat
  type : Nat
  position : Position
  value : Int
deriving DecidableEq

/-! ## Collision detector (src/unnamed/part_000, collision_detector.cpp) -/

/-- collision_detector::Item: a static point with a radius (width). -/
structure Item where
  position : Position
  width : ℚ
deriving DecidableEq

/-- collision_detector::Gatherer: swept segment with a radius (width). -/
structure Gatherer where
  start_pos : Position
  end_pos : Position
  width : ℚ
deriving DecidableEq

/-- collision_detector::CollectionResult; the field proj is proj_ratio in
the source. -/
structure CollectionResult where
  sq_distance : ℚ
  proj : ℚ
deriving DecidableEq

/-- collision_detector::GatheringEvent; time is the proj_ratio the event was
built from. -/
structure GatheringEvent where
  item_id : Nat
  gatherer_id : Nat
  sq_distance : ℚ
  time : ℚ
deriving DecidableEq

/-- collision_detector::TryCollectPoint. The source asserts b ≠ a before
dividing; in ℚ the division is total, and every call site guards b ≠ a. -/
def TryCollectPoint (a b c : Position) : CollectionResult :=
  let u_x := c.x - a.x
  let u_y := c.y - a.y
  let v_x := b.x - a.x
  let v_y := b.y - a.y
  let u_dot_v := u_x * v_x + u_y * v_y
  let u_len2 := u_x * u_x + u_y * u_y
  let v_len2 := v_x * v_x + v_y * v_y
  { sq_distance := u_len2 - (u_dot_v * u_dot_v) / v_len2, proj := u_dot_v / v_len2 }

/-- The inner for-loop of FindGatherEvents over items, carrying item_idx.
The event is kept iff proj_ratio is in [0, 1] and sq_distance is at most
gatherer.width * gatherer.width (the item width is not consulted by the
source). -/
def gatherEventsForItems (gi : Nat) (g : Gatherer) : Nat → List Item → List GatheringEvent
  | _, [] => []
  | ii, it :: rest =>
    let res := TryCollectPoint g.start_pos g.end_pos it.position
    (if 0 ≤ res.proj ∧ res.proj ≤ 1 ∧ res.sq_distance ≤ g.width * g.width then
      [⟨ii, gi, res.sq_distance, res.proj⟩]
    else []) ++ gatherEventsForItems gi g (ii + 1) rest

/-- The outer for-loop of FindGatherEvents over gatherers, carrying
gatherer_idx; gatherers with zero displacement are skipped. -/
def gatherEventsRaw (items : List Item) : Nat → List Gatherer → List GatheringEvent
  | _, [] => []
  | gi, g :: rest =>
    (if g.start_pos = g.end_pos then []
    else gatherEventsForItems gi g 0 items) ++ gatherEventsRaw items (gi + 1) rest

/-- Ordering of gathering events by time. -/
def evTimeLE (e1 e2 : GatheringEvent) : Prop := e1.time ≤ e2.time

instance : DecidableRel evTimeLE := fun a b =>
  inferInstanceAs (Decidable (a.time ≤ b.time))

instance : IsTotal GatheringEvent evTimeLE := ⟨fun a b => le_total a.time b.time⟩

instance : IsTrans GatheringEvent evTimeLE := ⟨fun _ _ _ h1 h2 => le_trans h1 h2⟩

/-- collision_detector::FindGatherEvents: collect the events of every
gatherer-item pair, then sort them by time. -/
def FindGatherEvents (items : List Item) (gatherers : List Gatherer) : List GatheringEvent :=
  List.insertionSort evTimeLE (gatherEventsRaw items 0 gatherers)

/-! ## Roads and maps (src/src/model.h, src/src/model.cpp) -/

/-- model::Road: an axis-aligned segment with integer endpoints stored as
doubles; the member width_ is the constant 0.4. -/
structure Road where
  start_ : Position
  end_ : Position
deriving DecidableEq

/-- Road::width_ = 0.4. -/
def roadWidth : ℚ := 2/5

def Road.IsHorizontal (r : Road) : Prop := r.start_.y = r.end_.y

def Road.IsVertical (r : Road) : Prop := r.start_.x = r.end_.x

instance (r : Road) : Decidable r.IsHorizontal :=
  inferInstanceAs (Decidable (r.start_.y = r.end_.y))

instance (r : Road) : Decidable r.IsVertical :=
  inferInstanceAs (Decidable (r.start_.x = r.end_.x))

def Road.GetMinX (r : Road) : ℚ := min r.start_.x r.end_.x

def Road.GetMaxX (r : Road) : ℚ := max r.start_.x r.end_.x

def Road.GetMinY (r : Road) : ℚ := min r.start_.y r.end_.y

def Road.GetMaxY (r : Road) : ℚ := max r.start_.y r.end_.y

/-- Road::GetBorders: the walkable strip, the road inflated by width_ on all
sides. -/
def Road.GetBorders (r : Road) : Position × Position :=
  (⟨r.GetMinX - roadWidth, r.GetMinY - roadWidth⟩,
   ⟨r.GetMaxX + roadWidth, r.GetMaxY + roadWidth⟩)

/-- Road::IsPositionInRoad: closed membership in the walkable strip. -/
def Road.IsPositionInRoad (r : Road) (pos : Position) : Prop :=
  let borders := r.GetBorders
  (pos.x ≥ borders.1.x ∧ pos.y ≥ borders.1.y) ∧
    (pos.x ≤ borders.2.x ∧ pos.y ≤ borders.2.y)

instance (r : Road) (pos : Position) : Decidable (r.IsPositionInRoad pos) := by
  unfold Road.IsPositionInRoad
  exact inferInstanceAs (Decidable (_ ∧ _))

/-- model::Office (id, position; the offset plays no role in the core). -/
structure Office where
  id : String
  position : Position
deriving DecidableEq

/-- model::Map, restricted to the fields the core simulation reads: the
roads, the offices, the loot-type values (lootTypeValues.get? t is the value
of loot type t; a missing value field reads as 0), the bag capacity and the
dog speed. -/
structure Map where
  roads : List Road
  offices : List Office
  lootTypeValues : List Int
  bag_capacity : Nat
  dog_speed : ℚ
deriving DecidableEq

/-- Lower-left corner of a road's strip. -/
def roadBoundsMin (r : Road) : Position :=
  ⟨r.GetMinX - roadWidth, r.GetMinY - roadWidth⟩

/-- Upper-right corner of a road's strip. -/
def roadBoundsMax (r : Road) : Position :=
  ⟨r.GetMaxX + roadWidth, r.GetMaxY + roadWidth⟩

/-- Map::GetExactMovementBounds: bounding box of the union of road strips.
The source seeds the fold with (+DBL_MAX, -DBL_MAX) and folds min/max over
every road; for a nonempty road list this equals seeding with the first
road's strip corners and folding over the rest. -/
def Map.GetExactMovementBounds (m : Map) : Position × Position :=
  match m.roads with
  | [] => (⟨0, 0⟩, ⟨0, 0⟩)
  | r :: rs =>
    rs.foldl
      (fun acc road =>
        (⟨min acc.1.x (roadBoundsMin road).x, min acc.1.y (roadBoundsMin road).y⟩,
         ⟨max acc.2.x (roadBoundsMax road).x, max acc.2.y (roadBoundsMax road).y⟩))
      (roadBoundsMin r, roadBoundsMax r)

/-- C++ pattern (v < lo ? lo : (v > hi ? hi : v)), as used for the map-box
clamp and std::clamp. -/
def clampQ (v lo hi : ℚ) : ℚ := if v < lo then lo else if v > hi then hi else v

/-- The map-box clamp step of Map::MoveDog: clamp the target
start + speed * delta_time to the exact movement bounds, reporting whether a
clamp happened on either axis. -/
def Map.clampTarget (m : Map) (start : Position) (speed : Speed) (delta_time : ℚ) :
    Position × Bool :=
  let target : Position := ⟨start.x + speed.vx * delta_time, start.y + speed.vy * delta_time⟩
  let b := m.GetExactMovementBounds
  (⟨clampQ target.x b.1.x b.2.x, clampQ target.y b.1.y b.2.y⟩,
   decide (target.x < b.1.x ∨ target.x > b.2.x) ||
     decide (target.y < b.1.y ∨ target.y > b.2.y))

/-- Squared distance between the clamped target and a projected position,
exactly as accumulated in Map::MoveDog. -/
def sqDistQ (p q : Position) : ℚ :=
  (p.x - q.x) * (p.x - q.x) + (p.y - q.y) * (p.y - q.y)

/-- One iteration of the corner-sliding loop of Map::MoveDog: the candidate
projection of final onto road's strip, if the road/speed branch applies and
the projection lands inside the strip. The if-chain order matches the
source; in the fourth branch the source computes a road_x it never uses, so
projected keeps final.x. -/
def slideCandidate (speed : Speed) (final : Position) (road : Road) : Option Position :=
  if road.IsHorizontal ∧ speed.vy ≠ 0 then
    let road_y := if speed.vy > 0 then road.start_.y + roadWidth else road.start_.y - roadWidth
    let projected : Position :=
      ⟨clampQ final.x (road.GetMinX - roadWidth) (road.GetMaxX + roadWidth), road_y⟩
    if road.IsPositionInRoad projected then some projected else none
  else if road.IsHorizontal ∧ speed.vx ≠ 0 then
    let road_y := road.start_.y + roadWidth
    let projected : Position :=
      ⟨clampQ final.x (road.GetMinX - roadWidth) (road.GetMaxX + roadWidth), road_y⟩
    if road.IsPositionInRoad projected then some projected else none
  else if road.IsVertical ∧ speed.vx ≠ 0 then
    let road_x := if speed.vx > 0 then road.start_.x + roadWidth else road.start_.x - roadWidth
    let projected : Position :=
      ⟨road_x, clampQ final.y (road.GetMinY - roadWidth) (road.GetMaxY + roadWidth)⟩
    if road.IsPositionInRoad projected then some projected else none
  else if road.IsVertical ∧ speed.vy ≠ 0 then
    let projected : Position :=
      ⟨final.x, clampQ final.y (road.GetMinY - roadWidth) (road.GetMaxY + roadWidth)⟩
    if road.IsPositionInRoad projected then some projected else none
  else none

/-- One step of the best-candidate fold of Map::MoveDog. The accumulator is
(best_position, min_distance_sq); None plays the role of the DBL_MAX seed
(every computed distance is below it). A candidate replaces the best only
when strictly closer. -/
def slideStep (speed : Speed) (final : Position) (acc : Position × Option ℚ) (road : Road) :
    Position × Option ℚ :=
  match slideCandidate speed final road with
  | none => acc
  | some p =>
    let d := sqDistQ final p
    match acc.2 with
    | none => (p, some d)
    | some mind => if d < mind then (p, some d) else acc

/-- Map::MoveDog (src/src/model.cpp): map-box clamp, on-road acceptance,
then corner sliding over the roads containing start. -/
def Map.MoveDog (m : Map) (start : Position) (speed : Speed) (delta_time : ℚ) : MoveResult :=
  if m.roads = [] then { position := start, hit_boundary := false }
  else
    let fc := m.clampTarget start speed delta_time
    if ∃ r ∈ m.roads, r.IsPositionInRoad fc.1 then
      { position := fc.1, hit_boundary := fc.2 }
    else
      let cur_roads := m.roads.filter (fun r => decide (r.IsPositionInRoad start))
      let best := (cur_roads.foldl (slideStep speed fc.1) (start, none)).1
      { position := best,
        hit_boundary := fc.2 || decide (best.x ≠ fc.1.x) || decide (best.y ≠ fc.1.y) }

/-! ## Dogs, players, sessions (src/src/model.h) -/

/-- model::Dog. The constructor starts at position (0,0), speed (0,0),
direction NORTH, previous_position (0,0). -/
structure Dog where
  id : String
  name : String
  map_id : String
  position : Position
  speed : Speed
  direction : Direction
  previous_position : Position
deriving DecidableEq

/-- Dog::IsMoving — the source tests vx != 0 AND vy != 0. -/
def Dog.IsMoving (d : Dog) : Prop := d.speed.vx ≠ 0 ∧ d.speed.vy ≠ 0

instance (d : Dog) : Decidable d.IsMoving :=
  inferInstanceAs (Decidable (_ ∧ _))

/-- model::Player. -/
structure Player where
  id : Nat
  dog : Dog
  token : String
  bag : List Loot
  bag_capacity : Nat
  score : Int
  play_time : ℚ
  idle_time : ℚ
deriving DecidableEq

/-- The Player constructor: empty bag, zero score, zero timers. -/
def mkPlayer (id : Nat) (dog : Dog) (token : String) (bag_capacity : Nat) : Player :=
  { id := id, dog := dog, token := token, bag := [], bag_capacity := bag_capacity,
    score := 0, play_time := 0, idle_time := 0 }

/-- Player::AddToBag: append only while the bag is below capacity. -/
def Player.AddToBag (p : Player) (loot : Loot) : Player :=
  if p.bag.length < p.bag_capacity then { p with bag := p.bag ++ [loot] } else p

/-- Player::IsBagFull. -/
def Player.IsBagFull (p : Player) : Prop := p.bag.length ≥ p.bag_capacity

instance (p : Player) : Decidable p.IsBagFull :=
  inferInstanceAs (Decidable (_ ≥ _))

/-- model::GameSession mutable state: players, live loots, next_loot_id,
plus the session id and the bound map id (used by the snapshot). -/
structure SessionState where
  id : String
  map_id : String
  players : List Player
  loots : List Loot
  next_loot_id : Nat
deriving DecidableEq

/-! ## GameSession::HandleCollisions (src/src/model.cpp) -/

/-- The GameEvent::Type of HandleCollisions. -/
inductive EventType where
  | loot
  | office
deriving DecidableEq

/-- The local GameEvent struct of HandleCollisions. -/
structure GameEvent where
  time : ℚ
  type : EventType
  gatherer_id : Nat
  item_id : Nat
deriving DecidableEq

/-- Both providers expose each player's dog as a gatherer sweeping from its
previous position to its current position with width 0.6. -/
def gathererOfPlayer (p : Player) : Gatherer :=
  ⟨p.dog.previous_position, p.dog.position, 3/5⟩

/-- LootProvider items: loot positions with width 0. -/
def lootItems (loots : List Loot) : List Item := loots.map (fun l => ⟨l.position, 0⟩)

/-- OfficeProvider items: office positions with width 0.5. -/
def officeItems (offices : List Office) : List Item :=
  offices.map (fun o => ⟨o.position, 1/2⟩)

/-- GameEvent ordering by time (GameEvent::operator<). -/
def geTimeLE (a b : GameEvent) : Prop := a.time ≤ b.time

instance : DecidableRel geTimeLE := fun a b =>
  inferInstanceAs (Decidable (a.time ≤ b.time))

instance : IsTotal GameEvent geTimeLE := ⟨fun a b => le_total a.time b.time⟩

instance : IsTrans GameEvent geTimeLE := ⟨fun _ _ _ h1 h2 => le_trans h1 h2⟩

/-- The merged, time-sorted event list HandleCollisions processes: the loot
events and the office events of the two detector runs, concatenated and
sorted by time. -/
def allGameEvents (offices : List Office) (players : List Player) (loots : List Loot) :
    List GameEvent :=
  let gs := players.map gathererOfPlayer
  let loot_events := FindGatherEvents (lootItems loots) gs
  let office_events := FindGatherEvents (officeItems offices) gs
  List.insertionSort geTimeLE
    (loot_events.map (fun e => ⟨e.time, EventType.loot, e.gatherer_id, e.item_id⟩) ++
      office_events.map (fun e => ⟨e.time, EventType.office, e.gatherer_id, e.item_id⟩))

/-- Processing of one event in HandleCollisions. The state is the player
list together with the collected-loot id set (a duplicate-free list). The
LOOT branch repeats the source's bounds guard; the OFFICE branch adds the
bag's total value to the score and clears the bag. -/
def processEvent (loots : List Loot) (st : List Player × List Nat) (e : GameEvent) :
    List Player × List Nat :=
  match e.type with
  | EventType.loot =>
    if e.gatherer_id ≥ st.1.length ∨ e.item_id ≥ loots.length then st
    else
      match st.1[e.gatherer_id]?, loots[e.item_id]? with
      | some player, some loot =>
        if loot.id ∈ st.2 then st
        else if ¬ player.IsBagFull then
          (st.1.set e.gatherer_id (player.AddToBag loot), loot.id :: st.2)
        else st
      | _, _ => st
  | EventType.office =>
    match st.1[e.gatherer_id]? with
    | some player =>
      let total : Int := player.bag.foldl (fun s l => s + l.value) 0
      (st.1.set e.gatherer_id { player with score := player.score + total, bag := [] }, st.2)
    | none => st

/-- GameSession::HandleCollisions: process the merged sorted events in
order, then erase every collected loot from the world. Returns the new
players, the remaining loots and the collected ids. -/
def HandleCollisions (offices : List Office) (players : List Player) (loots : List Loot) :
    List Player × List Loot × List Nat :=
  let st := (allGameEvents offices players loots).foldl (processEvent loots) (players, [])
  (st.1, loots.filter (fun l => decide (l.id ∉ st.2)), st.2)

/-! ## GameSession::UpdateState and RetireInactivePlayers (src/src/model.cpp) -/

/-- The idle-detection tolerance 1e-10 of UpdateState. -/
def EPS : ℚ := 1 / 10000000000

/-- Phase 1 of UpdateState for one player: play_time grows by delta_time;
idle_time grows when both speed components are below EPS in absolute value,
and resets to 0 otherwise. -/
def tickTimers (dt : ℚ) (p : Player) : Player :=
  let speed := p.dog.speed
  if |speed.vx| < EPS ∧ |speed.vy| < EPS then
    { p with play_time := p.play_time + dt, idle_time := p.idle_time + dt }
  else
    { p with play_time := p.play_time + dt, idle_time := 0 }

/-- The i-th loot spawned in phase 2 of UpdateState: type and position come
from the injected random streams, the value from the map's loot-type table
(0 when the type is out of range or carries no value), the id from the
next_loot_id counter. -/
def spawnedLoot (m : Map) (randType : Nat → Nat) (randPos : Nat → Position)
    (nextId : Nat) (i : Nat) : Loot :=
  let type := randType i
  let value := match m.lootTypeValues[type]? with
    | some v => v
    | none => 0
  ⟨nextId + i, type, randPos i, value⟩

/-- Phase 2 of UpdateState: the count new loots appended to the world, with
ids nextId, nextId+1, …. -/
def spawnLoots (m : Map) (randType : Nat → Nat) (randPos : Nat → Position)
    (nextId : Nat) (count : Nat) : List Loot :=
  (List.range count).map (spawnedLoot m randType randPos nextId)

/-- Phase 3a of UpdateState: previous_position := position. -/
def snapshotPrev (p : Player) : Player :=
  { p with dog := { p.dog with previous_position := p.dog.position } }

/-- Phase 3b of UpdateState: move the dog when IsMoving() or either speed
component exceeds EPS in absolute value; zero the speed on hit_boundary. -/
def movePhase (m : Map) (dt : ℚ) (p : Player) : Player :=
  let dog := p.dog
  if dog.IsMoving ∨ |dog.speed.vx| > EPS ∨ |dog.speed.vy| > EPS then
    let mr := m.MoveDog dog.position dog.speed dt
    if mr.hit_boundary then
      { p with dog := { dog with position := mr.position, speed := ⟨0, 0⟩ } }
    else
      { p with dog := { dog with position := mr.position } }
  else p

/-- GameSession::RetireInactivePlayers: one pass over the players; a player
with idle_time ≥ retire_time is reported (name, score, play_time) to the
retired-player callback and dropped, the others are kept in order. -/
def RetireInactivePlayers (retire_time : ℚ) (players : List Player) :
    List Player × List (String × Int × ℚ) :=
  players.foldl
    (fun acc p =>
      if p.idle_time ≥ retire_time then (acc.1, acc.2 ++ [(p.dog.name, p.score, p.play_time)])
      else (acc.1 ++ [p], acc.2))
    ([], [])

/-- GameSession::UpdateState: timers, loot spawn, movement, collisions,
retirement, in that order. newLootCount stands for the loot generator's
output this tick and randType/randPos for the injected random streams.
Returns the new session state and the retired-player records. -/
def UpdateState (m : Map) (retire_time : ℚ) (newLootCount : Nat)
    (randType : Nat → Nat) (randPos : Nat → Position)
    (s : SessionState) (dt : ℚ) : SessionState × List (String × Int × ℚ) :=
  let players1 := s.players.map (tickTimers dt)
  let loots1 := s.loots ++ spawnLoots m randType randPos s.next_loot_id newLootCount
  let nextId := s.next_loot_id + newLootCount
  let players2 := players1.map snapshotPrev
  let players3 := players2.map (movePhase m dt)
  let hc := HandleCollisions m.offices players3 loots1
  let rr := RetireInactivePlayers retire_time hc.1
  ({ s with players := rr.1, loots := hc.2.1, next_loot_id := nextId }, rr.2)

/-! ## Loot generator -/

/-- Modelled from the spec: loot_generator.h / loot_generator.cpp are not
among the sources (only src/tests/loot_generator_tests.cpp and the calls in
model.cpp are), so LootGenerator::Generate is modelled from §4.3 of the
specification. The accumulator T of unconsumed time is passed in and
returned; powFn stands for the real-exponent power (1-p)^ratio of step 4
and randVal for the random() draw of step 5, both injected. Step 6's clamp
(never exceeding shortage) is the final min. Returns the generated count
and the new accumulator. -/
def lootGenGenerate (base_interval base_probability : ℚ) (powFn : ℚ → ℚ → ℚ)
    (randVal : ℚ) (acc dt : ℚ) (loot_count looter_count : Nat) : Nat × ℚ :=
  let t := acc + dt
  let shortage : Nat := looter_count - loot_count
  if shortage = 0 then (0, 0)
  else
    let ratio := min 1 (t / base_interval)
    let p := 1 - powFn (1 - base_probability) ratio
    let n0 : ℤ := Int.floor ((shortage : ℚ) * p * randVal + 1/2)
    let n : Nat := min n0.toNat shortage
    (n, if n > 0 then 0 else t)

/-! ## State snapshot (src/src/application_listener.h, state_serializer.cpp)

The JSON objects written by StateSerializer are embedded as records holding
exactly the serialized fields; coordinates pass through Round6 on the way
out, as in the source. -/

/-- The JSON object written by StateSerializer::SerializeLoot. -/
structure LootSnap where
  id : Nat
  type : Nat
  value : Int
  pos : Position
deriving DecidableEq

/-- The JSON object written by StateSerializer::SerializeDog. -/
structure DogSnap where
  id : String
  name : String
  map_id : String
  pos : Position
  speed : Speed
  direction : Direction
deriving DecidableEq

/-- The JSON object written by StateSerializer::SerializePlayer. -/
structure PlayerSnap where
  id : Nat
  token : String
  score : Int
  bag_capacity : Nat
  dog : DogSnap
  bag : List LootSnap
deriving DecidableEq

/-- The JSON object written by StateSerializer::SerializeSession. -/
structure SessionSnap where
  id : String
  map_id : String
  next_loot_id : Nat
  players : List PlayerSnap
  loots : List LootSnap
deriving DecidableEq

/-- StateSerializer::SerializeLoot: id, type, value, position rounded to 6
decimals. -/
def SerializeLoot (l : Loot) : LootSnap :=
  ⟨l.id, l.type, l.value, ⟨Round6 l.position.x, Round6 l.position.y⟩⟩

/-- StateSerializer::SerializeDog: id, name, map_id, position and speed
rounded to 6 decimals, direction. previous_position is not serialized. -/
def SerializeDog (d : Dog) : DogSnap :=
  ⟨d.id, d.name, d.map_id, ⟨Round6 d.position.x, Round6 d.position.y⟩,
   ⟨Round6 d.speed.vx, Round6 d.speed.vy⟩, d.direction⟩

/-- StateSerializer::SerializePlayer: id, token, score, bag_capacity, dog,
bag. play_time and idle_time are not serialized. -/
def SerializePlayer (p : Player) : PlayerSnap :=
  ⟨p.id, p.token, p.score, p.bag_capacity, SerializeDog p.dog, p.bag.map SerializeLoot⟩

/-- StateSerializer::SerializeSession. -/
def SerializeSession (s : SessionState) : SessionSnap :=
  ⟨s.id, s.map_id, s.next_loot_id, s.players.map SerializePlayer, s.loots.map SerializeLoot⟩

/-- StateSerializer::DeserializeLoot. -/
def DeserializeLoot (ls : LootSnap) : Loot := ⟨ls.id, ls.type, ls.pos, ls.value⟩

/-- StateSerializer::DeserializeDog: the Dog constructor (previous_position
(0,0)) followed by SetPosition, SetSpeed, SetDirection. -/
def DeserializeDog (ds : DogSnap) : Dog :=
  { id := ds.id, name := ds.name, map_id := ds.map_id, position := ds.pos,
    speed := ds.speed, direction := ds.direction, previous_position := ⟨0, 0⟩ }

/-- StateSerializer::DeserializePlayer: the Player constructor, AddScore,
then the bag restored through Player::AddToBag one loot at a time. -/
def DeserializePlayer (ps : PlayerSnap) : Player :=
  let base := mkPlayer ps.id (DeserializeDog ps.dog) ps.token ps.bag_capacity
  let scored := { base with score := base.score + ps.score }
  ps.bag.foldl (fun pl ls => pl.AddToBag (DeserializeLoot ls)) scored

/-- StateSerializer::DeserializeSession into a game that holds the given
maps and no session yet for the snapshot's map: Game::GetOrCreateSession
creates the session with id map_id + "_session" when the map exists (and
fails, skipping the session, when it does not), next_loot_id is restored,
then players and loots are appended in snapshot order. -/
def DeserializeSession (maps : List String) (snap : SessionSnap) : Option SessionState :=
  if snap.map_id ∈ maps then
    some
      { id := snap.map_id ++ "_session", map_id := snap.map_id,
        next_loot_id := snap.next_loot_id,
        players := snap.players.map DeserializePlayer,
        loots := snap.loots.map DeserializeLoot }
  else none

/-- What a loot becomes after a serialize/deserialize round trip: its
position rounded to 6 decimals. -/
def roundTripLoot (l : Loot) : Loot :=
  { l with position := ⟨Round6 l.position.x, Round6 l.position.y⟩ }

/-- What a player becomes after a serialize/deserialize round trip: dog
position and speed rounded to 6 decimals, bag loots rounded likewise,
previous_position and the two timers reset (they are not serialized);
id, token, score, bag capacity, direction and names unchanged. -/
def roundTripPlayer (p : Player) : Player :=
  { id := p.id, token := p.token, score := p.score, bag_capacity := p.bag_capacity,
    bag := p.bag.map roundTripLoot,
    dog := { id := p.dog.id, name := p.dog.name, map_id := p.dog.map_id,
             position := ⟨Round6 p.dog.position.x, Round6 p.dog.position.y⟩,
             speed := ⟨Round6 p.dog.speed.vx, Round6 p.dog.speed.vy⟩,
             direction := p.dog.direction, previous_position := ⟨0, 0⟩ },
    play_time := 0, idle_time := 0 }

/-! ## Auxiliary definitions used by the statements -/

/-- How many loots with id v sit in p's bag. -/
def lootCountInBag (v : Nat) (p : Player) : Nat :=
  p.bag.countP (fun l => decide (l.id = v))

/-- How many loots with id v sit in any bag of the player list. -/
def bagCountId (v : Nat) (players : List Player) : Nat :=
  (players.map (lootCountInBag v)).sum

/-- A player's bag respects its capacity. -/
def bagInv (p : Player) : Prop := p.bag.length ≤ p.bag_capacity

instance (p : Player) : Decidable (bagInv p) :=
  inferInstanceAs (Decidable (_ ≤ _))

/-- 1 when id v is already in the collected set, else 0. -/
def cInd (v : Nat) (c : List Nat) : Nat := if v ∈ c then 1 else 0

/-- The corner-sliding candidate projections of Map::MoveDog: one per road
whose strip contains start and whose branch applies and keeps its projection
inside the strip. -/
def slideCandidates (m : Map) (start : Position) (speed : Speed) (final : Position) :
    List Position :=
  (m.roads.filter (fun r => decide (r.IsPositionInRoad start))).filterMap
    (slideCandidate speed final)

/-- The two roads of scenario S4: (0,0)-(10,0) and (10,0)-(10,10). -/
def cornerMap : Map :=
  { roads := [⟨⟨0, 0⟩, ⟨10, 0⟩⟩, ⟨⟨10, 0⟩, ⟨10, 10⟩⟩], offices := [],
    lootTypeValues := [], bag_capacity := 3, dog_speed := 4 }

/-- An L-shaped map: roads (0,0)-(10,0) and (0,0)-(0,10); its bounding box
strictly contains the union of the two strips, so a clamped target can lie
on no road. -/
def lShapeMap : Map :=
  { roads := [⟨⟨0, 0⟩, ⟨10, 0⟩⟩, ⟨⟨0, 0⟩, ⟨0, 10⟩⟩], offices := [],
    lootTypeValues := [], bag_capacity := 3, dog_speed := 4 }

/-- A dog that swept from (0,0) to (10,0) this tick. -/
def c4Dog : Dog :=
  { id := "dog1", name := "Pat", map_id := "m1", position := ⟨10, 0⟩,
    speed := ⟨0, 0⟩, direction := Direction.east, previous_position := ⟨0, 0⟩ }

/-- A player who starts the tick already carrying a loot of value 7. -/
def c4Player : Player :=
  { id := 1, dog := c4Dog, token := "tok1", bag := [⟨9, 0, ⟨1, 1⟩, 7⟩],
    bag_capacity := 3, score := 0, play_time := 0, idle_time := 0 }

/-- An office on the sweep at (2,0): delivery at time 0.2. -/
def c4Office : Office := ⟨"o1", ⟨2, 0⟩⟩

/-- A world loot on the sweep at (5,0): pickup at time 0.5. -/
def c4Loot : Loot := ⟨5, 0, ⟨5, 0⟩, 3⟩

/-- A stationary dog at (3,0). -/
def c10Dog : Dog :=
  { id := "dog2", name := "Kim", map_id := "m1", position := ⟨3, 0⟩,
    speed := ⟨0, 0⟩, direction := Direction.north, previous_position := ⟨3, 0⟩ }

/-- A stationary player carrying one loot. -/
def c10Player : Player :=
  { id := 2, dog := c10Dog, token := "tok2", bag := [⟨4, 0, ⟨2, 2⟩, 6⟩],
    bag_capacity := 3, score := 11, play_time := 5, idle_time := 1 }

/-- A session with the stationary player and one live loot, used to witness
the stationary-player and loot-id theorems. -/
def c10Session : SessionState :=
  { id := "m1_session", map_id := "m1", players := [c10Player],
    loots := [⟨7, 0, ⟨6, 0⟩, 2⟩], next_loot_id := 8 }

/-! ## Theorems -/

/-- C1: the spec (and the repository's own collision-detector test
"Gatherer width exactly matches distance") requires an event whenever the
projection falls in [0,1] and sq_distance ≤ (r_g + r_i)²; the code instead
compares sq_distance against r_g² alone, ignoring the item radius. At the
input of that test — gatherer sweeping (0,0)→(10,0) with radius 0.5, item
at (5,1) with radius 0.5 — the conditions of the claim hold (sq_distance
= 1 ≤ (0.5+0.5)² = 1), yet FindGatherEvents reports no event. -/
theorem FindGatherEvents_drops_item_radius :
    FindGatherEvents [⟨⟨5, 1⟩, 1/2⟩] [⟨⟨0, 0⟩, ⟨10, 0⟩, 1/2⟩] = [] ∧
      (⟨⟨0, 0⟩, ⟨10, 0⟩, (1/2 : ℚ)⟩ : Gatherer).start_pos ≠
        (⟨⟨0, 0⟩, ⟨10, 0⟩, (1/2 : ℚ)⟩ : Gatherer).end_pos ∧
      0 ≤ (TryCollectPoint ⟨0, 0⟩ ⟨10, 0⟩ ⟨5, 1⟩).proj ∧
      (TryCollectPoint ⟨0, 0⟩ ⟨10, 0⟩ ⟨5, 1⟩).proj ≤ 1 ∧
      (TryCollectPoint ⟨0, 0⟩ ⟨10, 0⟩ ⟨5, 1⟩).sq_distance ≤ (1/2 + 1/2) * (1/2 + 1/2) :=
  of_decide_eq_true (by with_unfolding_all rfl)

/-- C7: LootGenerator::Generate (modelled from §4.3 of the spec, the source
file being absent) never returns more than max(0, looter_count −
loot_count), whatever the elapsed time, the accumulator, the power function
and the random draw; in particular it returns 0 when loot_count ≥
looter_count. -/
theorem lootGenGenerate_le_shortage (base_interval base_probability : ℚ)
    (powFn : ℚ → ℚ → ℚ) (randVal acc dt : ℚ) (loot_count looter_count : Nat) :
    ((lootGenGenerate base_interval base_probability powFn randVal acc dt
        loot_count looter_count).1 : ℤ) ≤
      max 0 ((looter_count : ℤ) - (loot_count : ℤ)) ∧
    (loot_count ≥ looter_count →
      (lootGenGenerate base_interval base_probability powFn randVal acc dt
        loot_count looter_count).1 = 0) := by
  unfold lootGenGenerate
  by_cases h : looter_count - loot_count = 0
  · simp only [h, if_pos rfl]
    refine ⟨?_, fun _ => rfl⟩
    simp only [Nat.cast_zero]
    exact le_max_left 0 _
  · rw [if_neg h]
    constructor
    · have hle : min (Int.floor ((looter_count - loot_count : Nat) *
          (1 - powFn (1 - base_probability)
            (min 1 ((acc + dt) / base_interval))) * randVal + 1/2)).toNat
          (looter_count - loot_count) ≤ looter_count - loot_count :=
        Nat.min_le_right _ _
      have h2 : loot_count ≤ looter_count := by omega
      simp only []
      omega
    · intro hge
      omega

/-- C7 witness: at loot_count = 10 ≥ looter_count = 5 the generator
returns 0, and the bound holds there. -/
theorem lootGenGenerate_le_shortage_witness :
    10 ≥ 5 ∧
      (lootGenGenerate 1 (1/2) (fun _ _ => 1/2) (1/2) 0 1 10 5).1 = 0 :=
  ⟨by omega,
    (lootGenGenerate_le_shortage 1 (1/2) (fun _ _ => 1/2) (1/2) 0 1 10 5).2 (by omega)⟩

/-- The retirement pass is a fold; it equals a filter of the survivors and
a map over a filter of the retired, relative to any accumulator. -/
theorem retire_foldl_eq (t : ℚ) :
    ∀ (ps : List Player) (acc : List Player × List (String × Int × ℚ)),
      ps.foldl
        (fun acc p =>
          if p.idle_time ≥ t then (acc.1, acc.2 ++ [(p.dog.name, p.score, p.play_time)])
          else (acc.1 ++ [p], acc.2)) acc =
      (acc.1 ++ ps.filter (fun p => decide (p.idle_time < t)),
       acc.2 ++ (ps.filter (fun p => decide (t ≤ p.idle_time))).map
          (fun p => (p.dog.name, p.score, p.play_time))) := by
  intro ps
  induction ps with
  | nil => intro acc; simp
  | cons p rest ih =>
    intro acc
    by_cases hp : p.idle_time ≥ t
    · have h1 : (decide (p.idle_time < t)) = false := by
        simp only [decide_eq_false_iff_not, not_lt]; exact hp
      have h2 : (decide (t ≤ p.idle_time)) = true := by
        simp only [decide_eq_true_eq]; exact hp
      simp only [List.foldl_cons, if_pos hp, ih, List.filter_cons, h1, h2]
      simp
    · have h1 : (decide (p.idle_time < t)) = true := by
        simp only [decide_eq_true_eq]; exact lt_of_not_ge hp
      have h2 : (decide (t ≤ p.idle_time)) = false := by
        simp only [decide_eq_false_iff_not, not_le]; exact lt_of_not_ge hp
      simp only [List.foldl_cons, if_neg hp, ih, List.filter_cons, h1, h2]
      simp

/-- The retirement pass characterized: survivors are exactly the players
with idle_time < t in their original order, and the retired records are
(name, score, play_time) of exactly the players with idle_time ≥ t, one
record each, in order. -/
theorem retire_eq (t : ℚ) (ps : List Player) :
    RetireInactivePlayers t ps =
      (ps.filter (fun p => decide (p.idle_time < t)),
       (ps.filter (fun p => decide (t ≤ p.idle_time))).map
          (fun p => (p.dog.name, p.score, p.play_time))) := by
  unfold RetireInactivePlayers
  rw [retire_foldl_eq]
  simp

/-- C8: after collisions are processed in a tick, every player with
idle_time ≥ the retirement time is removed and reported (name, score,
play_time) exactly once, in list order; the survivors are exactly the
players below the threshold, in their original relative order. The second
conjunct places the pass inside UpdateState: the resulting players are the
filtered post-collision players and the emitted records come from the
post-collision players above the threshold. -/
theorem RetireInactivePlayers_spec :
    (∀ (t : ℚ) (ps : List Player),
      RetireInactivePlayers t ps =
        (ps.filter (fun p => decide (p.idle_time < t)),
         (ps.filter (fun p => decide (t ≤ p.idle_time))).map
            (fun p => (p.dog.name, p.score, p.play_time)))) ∧
    (∀ (m : Map) (t : ℚ) (count : Nat) (randType : Nat → Nat)
        (randPos : Nat → Position) (s : SessionState) (dt : ℚ),
      (UpdateState m t count randType randPos s dt).1.players =
        ((HandleCollisions m.offices
            (((s.players.map (tickTimers dt)).map snapshotPrev).map (movePhase m dt))
            (s.loots ++ spawnLoots m randType randPos s.next_loot_id count)).1.filter
          (fun p => decide (p.idle_time < t))) ∧
      (UpdateState m t count randType randPos s dt).2 =
        ((HandleCollisions m.offices
            (((s.players.map (tickTimers dt)).map snapshotPrev).map (movePhase m dt))
            (s.loots ++ spawnLoots m randType randPos s.next_loot_id count)).1.filter
          (fun p => decide (t ≤ p.idle_time))).map
            (fun p => (p.dog.name, p.score, p.play_time))) := by
  refine ⟨retire_eq, ?_⟩
  intro m t count randType randPos s dt
  unfold UpdateState
  simp only [retire_eq]
  trivial

/-- A corner-sliding candidate always lies inside the strip of the road it
was projected onto: every branch of slideCandidate returns its projection
only after Road::IsPositionInRoad accepts it. -/
theorem slideCandidate_in_road (speed : Speed) (final : Position) (road : Road)
    (p : Position) (h : slideCandidate speed final road = some p) :
    road.IsPositionInRoad p := by
  unfold slideCandidate at h
  split_ifs at h <;> (dsimp only at h; try split at h) <;>
    first
      | (injection h with he; subst he; assumption)
      | exact Option.noConfusion h

/-- The best-candidate fold of Map::MoveDog preserves any property that
holds of the accumulator and of every candidate produced along the list. -/
theorem slide_foldl_pres (speed : Speed) (final : Position) (Q : Position → Prop) :
    ∀ (l : List Road) (acc : Position × Option ℚ),
      (∀ r ∈ l, ∀ p, slideCandidate speed final r = some p → Q p) →
      Q acc.1 → Q (l.foldl (slideStep speed final) acc).1 := by
  intro l
  induction l with
  | nil => intro acc _ hacc; simpa using hacc
  | cons r rs ih =>
    intro acc hcand hacc
    rw [List.foldl_cons]
    refine ih _ (fun r' hr' p hp => hcand r' (List.mem_cons_of_mem _ hr') p hp) ?_
    unfold slideStep
    cases hc : slideCandidate speed final r with
    | none => exact hacc
    | some p =>
      have hQp : Q p := hcand r (List.mem_cons_self _ _) p hc
      cases hacc2 : acc.2 with
      | none => exact hQp
      | some mind =>
        by_cases hlt : sqDistQ final p < mind
        · simpa [hlt] using hQp
        · simpa [hlt] using hacc

/-- C2: for every map with at least one road, every start position inside
the union of the road walkable strips, every speed and every delta_time ≥ 0,
the position returned by Map::MoveDog lies in the union of the road
walkable strips (closed): the map-box-clamped target is accepted only when
some strip contains it, and otherwise the corner-sliding fold only ever
replaces the start position (itself in the union) by a strip-contained
projection. -/
theorem MoveDog_stays_in_road_union (m : Map) (start : Position) (speed : Speed)
    (dt : ℚ) (hroads : m.roads ≠ []) (hdt : 0 ≤ dt)
    (hstart : ∃ r ∈ m.roads, r.IsPositionInRoad start) :
    ∃ r ∈ m.roads, r.IsPositionInRoad (m.MoveDog start speed dt).position := by
  unfold Map.MoveDog
  rw [if_neg hroads]
  by_cases hfin : ∃ r ∈ m.roads, r.IsPositionInRoad (m.clampTarget start speed dt).1
  · rw [if_pos hfin]
    exact hfin
  · rw [if_neg hfin]
    refine slide_foldl_pres speed (m.clampTarget start speed dt).1
      (fun p => ∃ r ∈ m.roads, r.IsPositionInRoad p) _ _ ?_ hstart
    intro r hr p hp
    exact ⟨r, (List.mem_filter.mp hr).1, slideCandidate_in_road _ _ _ _ hp⟩

/-- C2 witness: on the single-road map (0,0)-(10,0), a dog starting at
(0,0) with speed (1,0) over one second ends inside the union of strips. -/
theorem MoveDog_stays_in_road_union_witness :
    (⟨[⟨⟨0, 0⟩, ⟨10, 0⟩⟩], [], [], 3, 4⟩ : Map).roads ≠ [] ∧
      (0 : ℚ) ≤ 1 ∧
      (∃ r ∈ (⟨[⟨⟨0, 0⟩, ⟨10, 0⟩⟩], [], [], 3, 4⟩ : Map).roads,
        r.IsPositionInRoad ⟨0, 0⟩) ∧
      ∃ r ∈ (⟨[⟨⟨0, 0⟩, ⟨10, 0⟩⟩], [], [], 3, 4⟩ : Map).roads,
        r.IsPositionInRoad
          ((⟨[⟨⟨0, 0⟩, ⟨10, 0⟩⟩], [], [], 3, 4⟩ : Map).MoveDog ⟨0, 0⟩ ⟨1, 0⟩ 1).position :=
  ⟨of_decide_eq_true (by with_unfolding_all rfl),
   of_decide_eq_true (by with_unfolding_all rfl),
   of_decide_eq_true (by with_unfolding_all rfl),
   MoveDog_stays_in_road_union _ ⟨0, 0⟩ ⟨1, 0⟩ 1
     (of_decide_eq_true (by with_unfolding_all rfl))
     (of_decide_eq_true (by with_unfolding_all rfl))
     (of_decide_eq_true (by with_unfolding_all rfl))⟩

/-- Two positions with equal coordinates are equal. -/
theorem Position.ext_xy (a b : Position) (hx : a.x = b.x) (hy : a.y = b.y) : a = b := by
  cases a
  cases b
  dsimp only at hx hy
  rw [hx, hy]

/-- If the map-box clamp moved neither coordinate, the clamp flag of
Map::MoveDog is false — contrapositively, a clamped target different from
the raw target implies the flag. -/
theorem clampTarget_flag_of_ne (m : Map) (start : Position) (speed : Speed) (dt : ℚ)
    (h : (m.clampTarget start speed dt).1 ≠
      ⟨start.x + speed.vx * dt, start.y + speed.vy * dt⟩) :
    (m.clampTarget start speed dt).2 = true := by
  unfold Map.clampTarget at h ⊢
  dsimp only at h ⊢
  by_contra hflag
  rw [Bool.not_eq_true, Bool.or_eq_false_iff, decide_eq_false_iff_not,
    decide_eq_false_iff_not] at hflag
  obtain ⟨hx, hy⟩ := hflag
  push_neg at hx hy
  apply h
  unfold clampQ
  rw [if_neg (not_lt.mpr hx.1), if_neg (not_lt.mpr hx.2),
    if_neg (not_lt.mpr hy.1), if_neg (not_lt.mpr hy.2)]

/-- The best-candidate fold either keeps the seed (distance none) or holds
exactly the squared distance of the position it carries. -/
theorem slide_foldl_achieves (speed : Speed) (final : Position) :
    ∀ (l : List Road) (acc : Position × Option ℚ),
      (acc.2 = none ∨ acc.2 = some (sqDistQ final acc.1)) →
      ((l.foldl (slideStep speed final) acc).2 = none ∨
        (l.foldl (slideStep speed final) acc).2 =
          some (sqDistQ final (l.foldl (slideStep speed final) acc).1)) := by
  intro l
  induction l with
  | nil => intro acc hacc; simpa using hacc
  | cons r rs ih =>
    intro acc hacc
    rw [List.foldl_cons]
    refine ih _ ?_
    unfold slideStep
    cases hc : slideCandidate speed final r with
    | none => exact hacc
    | some p =>
      rcases hacc with hacc | hacc
      · rw [hacc]
        right; rfl
      · rw [hacc]
        dsimp only
        by_cases hlt : sqDistQ final p < sqDistQ final acc.1
        · rw [if_pos hlt]
          right; rfl
        · rw [if_neg hlt]
          right
          exact hacc

/-- Once the fold carries a distance, it only ever decreases. -/
theorem slide_foldl_mono (speed : Speed) (final : Position) :
    ∀ (l : List Road) (acc : Position × Option ℚ) (d0 : ℚ),
      acc.2 = some d0 →
      ∃ d, (l.foldl (slideStep speed final) acc).2 = some d ∧ d ≤ d0 := by
  intro l
  induction l with
  | nil => intro acc d0 hacc; exact ⟨d0, hacc, le_refl d0⟩
  | cons r rs ih =>
    intro acc d0 hacc
    rw [List.foldl_cons]
    unfold slideStep
    cases hc : slideCandidate speed final r with
    | none => exact ih acc d0 hacc
    | some p =>
      rw [hacc]
      by_cases hlt : sqDistQ final p < d0
      · simp only [hlt, if_pos]
        obtain ⟨d, hd, hle⟩ := ih (p, some (sqDistQ final p)) (sqDistQ final p) rfl
        exact ⟨d, hd, le_trans hle (le_of_lt hlt)⟩
      · simp only [hlt, ite_false]
        obtain ⟨d, hd, hle⟩ := ih acc d0 hacc
        exact ⟨d, hd, hle⟩

/-- Any candidate produced along the list bounds the distance the fold ends
with. -/
theorem slide_foldl_min (speed : Speed) (final : Position) :
    ∀ (l : List Road) (acc : Position × Option ℚ) (c : Position),
      (∃ r ∈ l, slideCandidate speed final r = some c) →
      ∃ d, (l.foldl (slideStep speed final) acc).2 = some d ∧ d ≤ sqDistQ final c := by
  intro l
  induction l with
  | nil =>
    intro acc c hc
    obtain ⟨r, hr, _⟩ := hc
    exact absurd hr (List.not_mem_nil r)
  | cons r rs ih =>
    intro acc c hc
    rw [List.foldl_cons]
    obtain ⟨r', hr', hcand⟩ := hc
    rcases List.mem_cons.mp hr' with heq | hmem
    · subst heq
      have hstep : ((slideStep speed final acc r').2 = some (sqDistQ final c)) ∨
          (∃ m0, (slideStep speed final acc r').2 = some m0 ∧ m0 ≤ sqDistQ final c) := by
        unfold slideStep
        rw [hcand]
        cases hacc2 : acc.2 with
        | none => left; rfl
        | some mind =>
          dsimp only
          by_cases hlt : sqDistQ final c < mind
          · rw [if_pos hlt]
            left; rfl
          · rw [if_neg hlt]
            right
            exact ⟨mind, hacc2, le_of_not_lt hlt⟩
      rcases hstep with hstep | ⟨m0, hm0, hle0⟩
      · obtain ⟨d, hd, hle⟩ := slide_foldl_mono speed final rs _ _ hstep
        exact ⟨d, hd, hle⟩
      · obtain ⟨d, hd, hle⟩ := slide_foldl_mono speed final rs _ _ hm0
        exact ⟨d, hd, le_trans hle hle0⟩
    · exact ih (slideStep speed final acc r) c ⟨r', hmem, hcand⟩

/-- C3 counterexample: on the claim's own example — roads (0,0)-(10,0) and
(10,0)-(10,10), dog at (10,0), speed (5,5), delta_time 1 — Map::MoveDog
returns position (10.4, 5), not (10.4, 0) and not (10, 0.4): the
map-box-clamped target (10.4, 5) already lies inside the vertical road's
walkable strip, so step 2 accepts it and the corner-sliding step never
runs (hit_boundary is still true, from the map-box clamp). -/
theorem MoveDog_corner_example_refutes_claim :
    cornerMap.MoveDog ⟨10, 0⟩ ⟨5, 5⟩ 1 = ⟨⟨52/5, 5⟩, true⟩ ∧
      (cornerMap.MoveDog ⟨10, 0⟩ ⟨5, 5⟩ 1).position ≠ ⟨52/5, 0⟩ ∧
      (cornerMap.MoveDog ⟨10, 0⟩ ⟨5, 5⟩ 1).position ≠ ⟨10, 2/5⟩ ∧
      (∃ r ∈ cornerMap.roads,
        r.IsPositionInRoad (cornerMap.clampTarget ⟨10, 0⟩ ⟨5, 5⟩ 1).1) :=
  of_decide_eq_true (by with_unfolding_all rfl)

/-- C3 (amended): the corner-sliding step of Map::MoveDog applies only when
the map-box-clamped target lies in no road's walkable strip; in that case
the returned position is the start position or one of the per-road
projections of the roads whose strip contains the start, it minimizes the
squared distance to the clamped target among all those strip-contained
projections, and hit_boundary is true whenever the returned position
differs from the raw target. On the example — roads (0,0)-(10,0) and
(10,0)-(10,10), dog at (10,0), speed (5,5), delta_time 1 — the clamped
target (10.4, 5) lies inside the vertical road's strip, so the result is
(10.4, 5) with hit_boundary true rather than a corner slide. -/
theorem MoveDog_corner_slide_characterization :
    (∀ (m : Map) (start : Position) (speed : Speed) (dt : ℚ),
      m.roads ≠ [] →
      (¬ ∃ r ∈ m.roads, r.IsPositionInRoad (m.clampTarget start speed dt).1) →
      ((m.MoveDog start speed dt).position = start ∨
        (m.MoveDog start speed dt).position ∈
          slideCandidates m start speed (m.clampTarget start speed dt).1) ∧
      (∀ c ∈ slideCandidates m start speed (m.clampTarget start speed dt).1,
        sqDistQ (m.clampTarget start speed dt).1 (m.MoveDog start speed dt).position ≤
          sqDistQ (m.clampTarget start speed dt).1 c) ∧
      ((m.MoveDog start speed dt).position ≠
          ⟨start.x + speed.vx * dt, start.y + speed.vy * dt⟩ →
        (m.MoveDog start speed dt).hit_boundary = true)) ∧
    cornerMap.MoveDog ⟨10, 0⟩ ⟨5, 5⟩ 1 = ⟨⟨52/5, 5⟩, true⟩ := by
  constructor
  · intro m start speed dt hroads hne
    unfold Map.MoveDog
    rw [if_neg hroads, if_neg hne]
    dsimp only
    refine ⟨?_, ?_, ?_⟩
    · refine slide_foldl_pres speed (m.clampTarget start speed dt).1
        (fun p => p = start ∨ p ∈ slideCandidates m start speed (m.clampTarget start speed dt).1)
        _ _ ?_ (Or.inl rfl)
      intro r hr p hp
      exact Or.inr (List.mem_filterMap.mpr ⟨r, hr, hp⟩)
    · intro c hc
      obtain ⟨r, hr, hcand⟩ := List.mem_filterMap.mp hc
      obtain ⟨d, hd, hle⟩ := slide_foldl_min speed (m.clampTarget start speed dt).1
        (m.roads.filter (fun r => decide (r.IsPositionInRoad start)))
        (start, none) c ⟨r, hr, hcand⟩
      have hach := slide_foldl_achieves speed (m.clampTarget start speed dt).1
        (m.roads.filter (fun r => decide (r.IsPositionInRoad start)))
        (start, none) (Or.inl rfl)
      rcases hach with hnone | hsome
      · rw [hnone] at hd
        exact absurd hd (by simp)
      · rw [hsome] at hd
        injection hd with hd
        rw [hd]
        exact hle
    · intro hne2
      by_cases hbf :
          ((m.roads.filter (fun r => decide (r.IsPositionInRoad start))).foldl
            (slideStep speed (m.clampTarget start speed dt).1) (start, none)).1 =
            (m.clampTarget start speed dt).1
      · rw [hbf] at hne2 ⊢
        rw [clampTarget_flag_of_ne m start speed dt hne2]
        rfl
      · have hxy : ((m.roads.filter (fun r => decide (r.IsPositionInRoad start))).foldl
            (slideStep speed (m.clampTarget start speed dt).1) (start, none)).1.x ≠
              (m.clampTarget start speed dt).1.x ∨
            ((m.roads.filter (fun r => decide (r.IsPositionInRoad start))).foldl
              (slideStep speed (m.clampTarget start speed dt).1) (start, none)).1.y ≠
              (m.clampTarget start speed dt).1.y := by
          by_contra hcon
          push_neg at hcon
          apply hbf
          exact Position.ext_xy _ _ hcon.1 hcon.2
        rcases hxy with hx | hy
        · simp only [decide_eq_true hx, Bool.or_true, Bool.true_or]
        · simp only [decide_eq_true hy, Bool.or_true, Bool.true_or]
  · exact of_decide_eq_true (by with_unfolding_all rfl)

/-- C3 witness (for the amended theorem): on the L-shaped map with roads
(0,0)-(10,0) and (0,0)-(0,10), a dog at (5,0) with speed (0,5) over one
second has clamped target (5,5), which lies in no strip; the slide keeps it
on the horizontal strip with minimal distance and reports the boundary. -/
theorem MoveDog_corner_slide_characterization_witness :
    lShapeMap.roads ≠ [] ∧
      (¬ ∃ r ∈ lShapeMap.roads,
        r.IsPositionInRoad (lShapeMap.clampTarget ⟨5, 0⟩ ⟨0, 5⟩ 1).1) ∧
      (((lShapeMap.MoveDog ⟨5, 0⟩ ⟨0, 5⟩ 1).position = ⟨5, 0⟩ ∨
        (lShapeMap.MoveDog ⟨5, 0⟩ ⟨0, 5⟩ 1).position ∈
          slideCandidates lShapeMap ⟨5, 0⟩ ⟨0, 5⟩ (lShapeMap.clampTarget ⟨5, 0⟩ ⟨0, 5⟩ 1).1) ∧
      (∀ c ∈ slideCandidates lShapeMap ⟨5, 0⟩ ⟨0, 5⟩ (lShapeMap.clampTarget ⟨5, 0⟩ ⟨0, 5⟩ 1).1,
        sqDistQ (lShapeMap.clampTarget ⟨5, 0⟩ ⟨0, 5⟩ 1).1
            (lShapeMap.MoveDog ⟨5, 0⟩ ⟨0, 5⟩ 1).position ≤
          sqDistQ (lShapeMap.clampTarget ⟨5, 0⟩ ⟨0, 5⟩ 1).1 c) ∧
      ((lShapeMap.MoveDog ⟨5, 0⟩ ⟨0, 5⟩ 1).position ≠
          ⟨(5 : ℚ) + 0 * 1, (0 : ℚ) + 5 * 1⟩ →
        (lShapeMap.MoveDog ⟨5, 0⟩ ⟨0, 5⟩ 1).hit_boundary = true)) :=
  ⟨of_decide_eq_true (by with_unfolding_all rfl),
   of_decide_eq_true (by with_unfolding_all rfl),
   MoveDog_corner_slide_characterization.1 lShapeMap ⟨5, 0⟩ ⟨0, 5⟩ 1
     (of_decide_eq_true (by with_unfolding_all rfl))
     (of_decide_eq_true (by with_unfolding_all rfl))⟩

/-- C4: the merged pickup/delivery event list that HandleCollisions folds
over is sorted by nondecreasing event time, for every session content; and
on a session where the player's sweep (0,0)→(10,0) crosses the office at
(2,0) (delivery, time 0.2) before the loot at (5,0) (pickup, time 0.5), the
delivery is processed first — the prior bag (one item of value 7) is scored
and emptied — and the later pickup then lands in the emptied bag. -/
theorem HandleCollisions_processes_events_in_time_order :
    (∀ (offices : List Office) (players : List Player) (loots : List Loot),
      List.Sorted geTimeLE (allGameEvents offices players loots)) ∧
    HandleCollisions [c4Office] [c4Player] [c4Loot] =
      ([{ c4Player with score := 7, bag := [c4Loot] }], [], [5]) := by
  constructor
  · intro offices players loots
    unfold allGameEvents
    exact List.sorted_insertionSort geTimeLE _
  · exact of_decide_eq_true (by with_unfolding_all rfl)

/-- Player::AddToBag preserves the bag-capacity invariant: it appends only
below capacity, and leaves the bag alone otherwise. -/
theorem AddToBag_bagInv (p : Player) (l : Loot) (h : bagInv p) : bagInv (p.AddToBag l) := by
  unfold Player.AddToBag
  unfold bagInv at h ⊢
  split_ifs with hlen
  · simp only [List.length_append, List.length_cons, List.length_nil]
    omega
  · exact h

/-- Processing one collision event preserves the bag-capacity invariant of
every player: a pickup appends only through the IsBagFull guard and
AddToBag, a delivery empties the bag. -/
theorem processEvent_bagInv (loots : List Loot) (e : GameEvent)
    (st : List Player × List Nat) (h : ∀ p ∈ st.1, bagInv p) :
    ∀ p ∈ (processEvent loots st e).1, bagInv p := by
  unfold processEvent
  cases e.type with
  | loot =>
    dsimp only
    split_ifs with hguard
    · exact h
    · cases hg : st.1[e.gatherer_id]? with
      | none => exact h
      | some player =>
        cases hl : loots[e.item_id]? with
        | none => exact h
        | some loot =>
          dsimp only
          split_ifs with hcol hfull
          · exact h
          · exact h
          · intro q hq
            rcases List.mem_or_eq_of_mem_set hq with hq | hq
            · exact h q hq
            · subst hq
              exact AddToBag_bagInv player loot (h player (List.getElem?_mem hg))
  | office =>
    dsimp only
    cases hg : st.1[e.gatherer_id]? with
    | none => exact h
    | some player =>
      intro q hq
      rcases List.mem_or_eq_of_mem_set hq with hq | hq
      · exact h q hq
      · subst hq
        unfold bagInv
        simp only [List.length_nil]
        exact Nat.zero_le _

/-- Folding any event list preserves the bag-capacity invariant. -/
theorem processEvents_bagInv (loots : List Loot) :
    ∀ (evs : List GameEvent) (st : List Player × List Nat),
      (∀ p ∈ st.1, bagInv p) →
      ∀ p ∈ (evs.foldl (processEvent loots) st).1, bagInv p := by
  intro evs
  induction evs with
  | nil => intro st h; simpa using h
  | cons e rest ih =>
    intro st h
    rw [List.foldl_cons]
    exact ih _ (processEvent_bagInv loots e st h)

/-- The three per-player phases of the tick leave bag and capacity
untouched. -/
theorem phases_keep_bag (m : Map) (dt : ℚ) (p : Player) :
    (tickTimers dt p).bag = p.bag ∧ (tickTimers dt p).bag_capacity = p.bag_capacity ∧
    (snapshotPrev p).bag = p.bag ∧ (snapshotPrev p).bag_capacity = p.bag_capacity ∧
    (movePhase m dt p).bag = p.bag ∧ (movePhase m dt p).bag_capacity = p.bag_capacity := by
  unfold tickTimers snapshotPrev movePhase
  refine ⟨?_, ?_, rfl, rfl, ?_, ?_⟩ <;> (dsimp only; split_ifs <;> rfl)

/-- C6: the bag never exceeds its capacity — established at player
construction (empty bag), preserved by Player::AddToBag, preserved across a
whole session tick (including its pickup processing), and re-established by
StateSerializer::DeserializePlayer, whose bag restore goes through
AddToBag. -/
theorem bag_capacity_invariant :
    (∀ (id : Nat) (dog : Dog) (token : String) (cap : Nat),
      bagInv (mkPlayer id dog token cap)) ∧
    (∀ (p : Player) (l : Loot), bagInv p → bagInv (p.AddToBag l)) ∧
    (∀ (m : Map) (t : ℚ) (count : Nat) (randType : Nat → Nat)
        (randPos : Nat → Position) (s : SessionState) (dt : ℚ),
      (∀ p ∈ s.players, bagInv p) →
      ∀ p ∈ (UpdateState m t count randType randPos s dt).1.players, bagInv p) ∧
    (∀ ps : PlayerSnap, bagInv (DeserializePlayer ps)) := by
  refine ⟨?_, AddToBag_bagInv, ?_, ?_⟩
  · intro id dog token cap
    unfold bagInv mkPlayer
    simp only [List.length_nil]
    exact Nat.zero_le _
  · intro m t count randType randPos s dt h
    unfold UpdateState
    dsimp only
    intro p hp
    rw [retire_eq] at hp
    have hp2 := List.mem_filter.mp hp
    refine processEvents_bagInv _ _ _ ?_ p hp2.1
    intro q hq
    obtain ⟨q2, hq2, hq2e⟩ := List.mem_map.mp hq
    obtain ⟨q1, hq1, hq1e⟩ := List.mem_map.mp hq2
    obtain ⟨q0, hq0, hq0e⟩ := List.mem_map.mp hq1
    subst hq2e hq1e hq0e
    have h0 := h q0 hq0
    have h1 := phases_keep_bag m dt q0
    have h2 := phases_keep_bag m dt (tickTimers dt q0)
    have h3 := phases_keep_bag m dt (snapshotPrev (tickTimers dt q0))
    unfold bagInv at h0 ⊢
    rw [h3.2.2.2.2.1, h3.2.2.2.2.2, h2.2.2.1, h2.2.2.2.1, h1.1, h1.2.1]
    exact h0
  · intro ps
    unfold DeserializePlayer
    dsimp only
    have hbase : bagInv { mkPlayer ps.id (DeserializeDog ps.dog) ps.token ps.bag_capacity
        with score := (mkPlayer ps.id (DeserializeDog ps.dog) ps.token ps.bag_capacity).score
          + ps.score } := by
      unfold bagInv mkPlayer
      simp only [List.length_nil]
      exact Nat.zero_le _
    generalize hq : ({ mkPlayer ps.id (DeserializeDog ps.dog) ps.token ps.bag_capacity
        with score := (mkPlayer ps.id (DeserializeDog ps.dog) ps.token ps.bag_capacity).score
          + ps.score } : Player) = q at hbase ⊢
    clear hq
    induction ps.bag generalizing q with
    | nil => exact hbase
    | cons l rest ih =>
      rw [List.foldl_cons]
      exact ih _ (AddToBag_bagInv _ _ hbase)

/-- C6 witness: the invariant after a tick of the concrete one-player
session. -/
theorem bag_capacity_invariant_witness :
    (∀ p ∈ c10Session.players, bagInv p) ∧
      ∀ p ∈ (UpdateState cornerMap 60 0 (fun _ => 0) (fun _ => ⟨0, 0⟩)
          c10Session 1).1.players, bagInv p :=
  ⟨of_decide_eq_true (by with_unfolding_all rfl),
   bag_capacity_invariant.2.2.1 cornerMap 60 0 (fun _ => 0) (fun _ => ⟨0, 0⟩)
     c10Session 1 (of_decide_eq_true (by with_unfolding_all rfl))⟩

/-- AddToBag adds at most one copy of any loot id. -/
theorem lootCountInBag_AddToBag_le (v : Nat) (p : Player) (l : Loot) :
    lootCountInBag v (p.AddToBag l) ≤ lootCountInBag v p + 1 := by
  unfold Player.AddToBag lootCountInBag
  split_ifs with hlen
  · simp only [List.countP_append]
    have : List.countP (fun l => decide (l.id = v)) [l] ≤ 1 := by
      simp only [List.countP_cons, List.countP_nil]
      split_ifs <;> omega
    omega
  · omega

/-- AddToBag of a loot with a different id leaves the count of v alone. -/
theorem lootCountInBag_AddToBag_ne (v : Nat) (p : Player) (l : Loot) (hne : l.id ≠ v) :
    lootCountInBag v (p.AddToBag l) = lootCountInBag v p := by
  unfold Player.AddToBag lootCountInBag
  split_ifs with hlen
  · simp only [List.countP_append, List.countP_cons, List.countP_nil]
    simp [hne]
  · rfl

/-- Replacing one player changes the total bag count by at most the change
at that player. -/
theorem bagCountId_set_le (v : Nat) :
    ∀ (players : List Player) (i : Nat) (p p' : Player) (k : Nat),
      players[i]? = some p →
      lootCountInBag v p' ≤ lootCountInBag v p + k →
      bagCountId v (players.set i p') ≤ bagCountId v players + k := by
  intro players
  induction players with
  | nil => intro i p p' k hp _; simp at hp
  | cons q rest ih =>
    intro i p p' k hp hle
    cases i with
    | zero =>
      simp only [List.getElem?_cons_zero, Option.some.injEq] at hp
      subst hp
      unfold bagCountId
      simp only [List.set_cons_zero, List.map_cons, List.sum_cons]
      unfold bagCountId at *
      omega
    | succ j =>
      simp only [List.getElem?_cons_succ] at hp
      have := ih j p p' k hp hle
      unfold bagCountId at this ⊢
      simp only [List.set_cons_succ, List.map_cons, List.sum_cons]
      omega

/-- The collected-id set of the event fold only grows. -/
theorem processEvent_collected_mono (loots : List Loot) (e : GameEvent)
    (st : List Player × List Nat) (v : Nat) (hv : v ∈ st.2) :
    v ∈ (processEvent loots st e).2 := by
  unfold processEvent
  cases e.type with
  | loot =>
    dsimp only
    split_ifs with hguard
    · exact hv
    · cases hg : st.1[e.gatherer_id]? with
      | none => exact hv
      | some player =>
        cases hl : loots[e.item_id]? with
        | none => exact hv
        | some loot =>
          dsimp only
          split_ifs with hcol hfull
          · exact hv
          · exact hv
          · exact List.mem_cons_of_mem _ hv
  | office =>
    dsimp only
    cases hg : st.1[e.gatherer_id]? with
    | none => exact hv
    | some player => exact hv

/-- One event preserves the counting invariant: the bags hold at most B
copies of id v, plus one exactly when v has entered the collected set. -/
theorem processEvent_count_inv (v : Nat) (loots : List Loot) (e : GameEvent)
    (st : List Player × List Nat) (B : Nat)
    (h : bagCountId v st.1 ≤ B + cInd v st.2) :
    bagCountId v (processEvent loots st e).1 ≤ B + cInd v (processEvent loots st e).2 := by
  unfold processEvent
  cases e.type with
  | loot =>
    dsimp only
    split_ifs with hguard
    · exact h
    · cases hg : st.1[e.gatherer_id]? with
      | none => exact h
      | some player =>
        cases hl : loots[e.item_id]? with
        | none => exact h
        | some loot =>
          dsimp only
          split_ifs with hcol hfull
          · exact h
          · exact h
          · dsimp only
            by_cases hv : loot.id = v
            · subst hv
              have hpre : cInd loot.id st.2 = 0 := by
                unfold cInd
                rw [if_neg hcol]
              have hpost : cInd loot.id (loot.id :: st.2) = 1 := by
                unfold cInd
                rw [if_pos (List.mem_cons_self _ _)]
              have hset := bagCountId_set_le loot.id st.1 e.gatherer_id player
                (player.AddToBag loot) 1 hg (lootCountInBag_AddToBag_le loot.id player loot)
              rw [hpost]
              rw [hpre] at h
              omega
            · have hpost : cInd v (loot.id :: st.2) = cInd v st.2 := by
                unfold cInd
                by_cases hvin : v ∈ st.2
                · rw [if_pos hvin, if_pos (List.mem_cons_of_mem _ hvin)]
                · rw [if_neg hvin, if_neg]
                  intro hmem
                  rcases List.mem_cons.mp hmem with heq | hmem2
                  · exact hv heq.symm
                  · exact hvin hmem2
              have hset := bagCountId_set_le v st.1 e.gatherer_id player
                (player.AddToBag loot) 0 hg
                (le_of_eq (lootCountInBag_AddToBag_ne v player loot hv))
              rw [hpost]
              omega
  | office =>
    dsimp only
    cases hg : st.1[e.gatherer_id]? with
    | none => exact h
    | some player =>
      dsimp only
      have hle0 : lootCountInBag v { player with
          score := player.score + player.bag.foldl (fun s l => s + l.value) 0,
          bag := ([] : List Loot) } ≤ lootCountInBag v player + 0 := by
        unfold lootCountInBag
        simp
      have hset := bagCountId_set_le v st.1 e.gatherer_id player _ 0 hg hle0
      omega

/-- The event fold preserves the counting invariant and the collected set
grows along it. -/
theorem processEvents_count_inv (v : Nat) (loots : List Loot) (B : Nat) :
    ∀ (evs : List GameEvent) (st : List Player × List Nat),
      bagCountId v st.1 ≤ B + cInd v st.2 →
      bagCountId v (evs.foldl (processEvent loots) st).1 ≤
        B + cInd v (evs.foldl (processEvent loots) st).2 := by
  intro evs
  induction evs with
  | nil => intro st h; simpa using h
  | cons e rest ih =>
    intro st h
    rw [List.foldl_cons]
    exact ih _ (processEvent_count_inv v loots e st B h)

/-- Every loot spawned by the tick has an id in [nextId, nextId+count). -/
theorem spawnLoots_id_range (m : Map) (randType : Nat → Nat) (randPos : Nat → Position)
    (nextId count : Nat) (l : Loot) (hl : l ∈ spawnLoots m randType randPos nextId count) :
    nextId ≤ l.id ∧ l.id < nextId + count := by
  unfold spawnLoots at hl
  obtain ⟨i, hi, hie⟩ := List.mem_map.mp hl
  have hilt := List.mem_range.mp hi
  subst hie
  unfold spawnedLoot
  dsimp only
  omega

/-- The spawned ids are pairwise distinct. -/
theorem spawnLoots_id_nodup (m : Map) (randType : Nat → Nat) (randPos : Nat → Position)
    (nextId count : Nat) :
    ((spawnLoots m randType randPos nextId count).map Loot.id).Nodup := by
  unfold spawnLoots
  rw [List.map_map]
  have heq : (Loot.id ∘ spawnedLoot m randType randPos nextId) = (fun i => nextId + i) := by
    funext i
    rfl
  rw [heq]
  exact (List.nodup_range count).map (fun a b h => by omega)

/-- C5: per tick, each loot id enters a bag at most once (the collected-id
set guards every pickup), a picked-up loot is erased from the live loots,
and the next_loot_id counter hands out fresh, never-reused ids: it grows by
the spawn count, every live loot id stays below it, and distinctness of the
live loot ids is preserved. -/
theorem loot_picked_once_and_ids_fresh :
    (∀ (offices : List Office) (players : List Player) (loots : List Loot) (v : Nat),
      bagCountId v (HandleCollisions offices players loots).1 ≤ bagCountId v players + 1 ∧
      (bagCountId v players = 0 → bagCountId v (HandleCollisions offices players loots).1 ≤ 1) ∧
      (bagCountId v (HandleCollisions offices players loots).1 > bagCountId v players →
        v ∈ (HandleCollisions offices players loots).2.2) ∧
      (v ∈ (HandleCollisions offices players loots).2.2 →
        v ∉ ((HandleCollisions offices players loots).2.1.map Loot.id))) ∧
    (∀ (m : Map) (t : ℚ) (count : Nat) (randType : Nat → Nat) (randPos : Nat → Position)
        (s : SessionState) (dt : ℚ),
      (UpdateState m t count randType randPos s dt).1.next_loot_id =
        s.next_loot_id + count ∧
      ((∀ l ∈ s.loots, l.id < s.next_loot_id) →
        (∀ l ∈ (UpdateState m t count randType randPos s dt).1.loots,
          l.id < (UpdateState m t count randType randPos s dt).1.next_loot_id) ∧
        ((s.loots.map Loot.id).Nodup →
          ((UpdateState m t count randType randPos s dt).1.loots.map Loot.id).Nodup))) := by
  constructor
  · intro offices players loots v
    have hbase : bagCountId v players ≤ bagCountId v players + cInd v ([] : List Nat) := by
      unfold cInd
      simp
    have hinv := processEvents_count_inv v loots (bagCountId v players)
      (allGameEvents offices players loots) (players, []) hbase
    have hcind : ∀ c : List Nat, cInd v c ≤ 1 := by
      intro c
      unfold cInd
      split_ifs <;> omega
    refine ⟨?_, ?_, ?_, ?_⟩
    · have := hcind ((allGameEvents offices players loots).foldl
        (processEvent loots) (players, [])).2
      unfold HandleCollisions
      dsimp only
      omega
    · intro hzero
      have := hcind ((allGameEvents offices players loots).foldl
        (processEvent loots) (players, [])).2
      unfold HandleCollisions
      dsimp only
      omega
    · intro hgrow
      unfold HandleCollisions at hgrow ⊢
      dsimp only at hgrow ⊢
      by_contra hnotin
      have h0 : cInd v ((allGameEvents offices players loots).foldl
          (processEvent loots) (players, [])).2 = 0 := by
        unfold cInd
        rw [if_neg hnotin]
      omega
    · intro hcol hmem
      unfold HandleCollisions at hcol hmem
      dsimp only at hcol hmem
      obtain ⟨l, hl, hle⟩ := List.mem_map.mp hmem
      have hfl := List.mem_filter.mp hl
      have : l.id ∉ ((allGameEvents offices players loots).foldl
          (processEvent loots) (players, [])).2 := of_decide_eq_true hfl.2
      rw [hle] at this
      exact this hcol
  · intro m t count randType randPos s dt
    refine ⟨rfl, ?_⟩
    intro hlt
    have hmemall : ∀ l ∈ (UpdateState m t count randType randPos s dt).1.loots,
        l ∈ s.loots ++ spawnLoots m randType randPos s.next_loot_id count := by
      intro l hl
      unfold UpdateState HandleCollisions at hl
      dsimp only at hl
      exact (List.mem_filter.mp hl).1
    constructor
    · intro l hl
      rcases List.mem_append.mp (hmemall l hl) with hold | hnew
      · have := hlt l hold
        have hc : (UpdateState m t count randType randPos s dt).1.next_loot_id =
            s.next_loot_id + count := rfl
        omega
      · have := spawnLoots_id_range m randType randPos s.next_loot_id count l hnew
        have hc : (UpdateState m t count randType randPos s dt).1.next_loot_id =
            s.next_loot_id + count := rfl
        omega
    · intro hnd
      have hcomb : ((s.loots ++ spawnLoots m randType randPos s.next_loot_id count).map
          Loot.id).Nodup := by
        rw [List.map_append]
        rw [List.nodup_append]
        refine ⟨hnd, spawnLoots_id_nodup m randType randPos s.next_loot_id count, ?_⟩
        intro a ha hb
        obtain ⟨la, hla, hlae⟩ := List.mem_map.mp ha
        obtain ⟨lb, hlb, hlbe⟩ := List.mem_map.mp hb
        have h1 := hlt la hla
        have h2 := spawnLoots_id_range m randType randPos s.next_loot_id count lb hlb
        omega
      have hsub : ((UpdateState m t count randType randPos s dt).1.loots.map Loot.id).Sublist
          ((s.loots ++ spawnLoots m randType randPos s.next_loot_id count).map Loot.id) := by
        apply List.Sublist.map
        unfold UpdateState HandleCollisions
        dsimp only
        exact List.filter_sublist _
      exact hcomb.sublist hsub

/-- C5 witness: the concrete session of C4 shows pickup-once and removal
(loot id 5 collected, absent afterwards); the stationary session with two
spawned loots shows the counter advancing and the ids staying fresh and
distinct. -/
theorem loot_picked_once_and_ids_fresh_witness :
    (5 ∈ (HandleCollisions [c4Office] [c4Player] [c4Loot]).2.2 →
      5 ∉ ((HandleCollisions [c4Office] [c4Player] [c4Loot]).2.1.map Loot.id)) ∧
    (∀ l ∈ c10Session.loots, l.id < c10Session.next_loot_id) ∧
    (∀ l ∈ (UpdateState cornerMap 60 2 (fun _ => 0) (fun _ => ⟨0, 0⟩)
        c10Session 1).1.loots,
      l.id < (UpdateState cornerMap 60 2 (fun _ => 0) (fun _ => ⟨0, 0⟩)
        c10Session 1).1.next_loot_id) :=
  ⟨(loot_picked_once_and_ids_fresh.1 [c4Office] [c4Player] [c4Loot] 5).2.2.2,
   of_decide_eq_true (by with_unfolding_all rfl),
   ((loot_picked_once_and_ids_fresh.2 cornerMap 60 2 (fun _ => 0) (fun _ => ⟨0, 0⟩)
       c10Session 1).2 (of_decide_eq_true (by with_unfolding_all rfl))).1⟩

/-- Every event of the inner item loop carries the gatherer index it was
called with. -/
theorem gatherEventsForItems_gid (gi : Nat) (g : Gatherer) :
    ∀ (ii : Nat) (items : List Item) (e : GatheringEvent),
      e ∈ gatherEventsForItems gi g ii items → e.gatherer_id = gi := by
  intro ii items
  induction items generalizing ii with
  | nil => intro e he; simp [gatherEventsForItems] at he
  | cons it rest ih =>
    intro e he
    unfold gatherEventsForItems at he
    rcases List.mem_append.mp he with hin | hin
    · split_ifs at hin
      · rcases List.mem_singleton.mp hin with rfl
        rfl
      · simp at hin
    · exact ih (ii + 1) e hin

/-- Every raw event points at a gatherer of the list with nonzero
displacement. -/
theorem mem_gatherEventsRaw (items : List Item) :
    ∀ (gs : List Gatherer) (gi0 : Nat) (e : GatheringEvent),
      e ∈ gatherEventsRaw items gi0 gs →
      ∃ j g, gs[j]? = some g ∧ e.gatherer_id = gi0 + j ∧ g.start_pos ≠ g.end_pos := by
  intro gs
  induction gs with
  | nil => intro gi0 e he; simp [gatherEventsRaw] at he
  | cons g rest ih =>
    intro gi0 e he
    unfold gatherEventsRaw at he
    rcases List.mem_append.mp he with hin | hin
    · split_ifs at hin with hzero
      · simp at hin
      · refine ⟨0, g, by simp, ?_, hzero⟩
        rw [gatherEventsForItems_gid gi0 g 0 items e hin]
        omega
    · obtain ⟨j, g', hj, hgid, hmove⟩ := ih (gi0 + 1) e hin
      refine ⟨j + 1, g', ?_, ?_, hmove⟩
      · simpa using hj
      · omega

/-- Every event the merged, sorted stream of HandleCollisions attributes to
a gatherer comes from a player whose sweep this tick was nonzero. -/
theorem allGameEvents_gatherer_moving (offices : List Office) (players : List Player)
    (loots : List Loot) (e : GameEvent) (he : e ∈ allGameEvents offices players loots) :
    ∃ g, (players.map gathererOfPlayer)[e.gatherer_id]? = some g ∧
      g.start_pos ≠ g.end_pos := by
  unfold allGameEvents at he
  rw [List.mem_insertionSort] at he
  rcases List.mem_append.mp he with hin | hin <;>
  · obtain ⟨e0, he0, he0e⟩ := List.mem_map.mp hin
    unfold FindGatherEvents at he0
    rw [List.mem_insertionSort] at he0
    obtain ⟨j, g, hj, hgid, hmove⟩ := mem_gatherEventsRaw _ _ 0 e0 he0
    refine ⟨g, ?_, hmove⟩
    subst he0e
    dsimp only
    rw [hgid]
    simpa using hj

/-- Processing an event addressed to another gatherer leaves a player slot
untouched. -/
theorem processEvent_getElem_ne (loots : List Loot) (e : GameEvent)
    (st : List Player × List Nat) (i : Nat) (hne : e.gatherer_id ≠ i) :
    (processEvent loots st e).1[i]? = st.1[i]? := by
  unfold processEvent
  cases e.type with
  | loot =>
    dsimp only
    split_ifs with hguard
    · rfl
    · cases hg : st.1[e.gatherer_id]? with
      | none => rfl
      | some player =>
        cases hl : loots[e.item_id]? with
        | none => rfl
        | some loot =>
          dsimp only
          split_ifs with hcol hfull
          · rfl
          · rfl
          · exact List.getElem?_set_ne hne
  | office =>
    dsimp only
    cases hg : st.1[e.gatherer_id]? with
    | none => rfl
    | some player => exact List.getElem?_set_ne hne

/-- Folding events none of which address slot i leaves that slot
untouched. -/
theorem processEvents_getElem_ne (loots : List Loot) (i : Nat) :
    ∀ (evs : List GameEvent) (st : List Player × List Nat),
      (∀ e ∈ evs, e.gatherer_id ≠ i) →
      (evs.foldl (processEvent loots) st).1[i]? = st.1[i]? := by
  intro evs
  induction evs with
  | nil => intro st _; rfl
  | cons e rest ih =>
    intro st h
    rw [List.foldl_cons]
    rw [ih _ (fun e' he' => h e' (List.mem_cons_of_mem _ he'))]
    exact processEvent_getElem_ne loots e st i (h e (List.mem_cons_self _ _))

/-- C10: a player whose dog's speed is exactly (0,0) at the start of a tick
that does not retire it ends the tick present, with its dog's position
unchanged, its previous position equal to its position (a zero-length
sweep, which the collision detector skips), and its bag and score unchanged
by the collision processing. -/
theorem stationary_player_unchanged (m : Map) (t : ℚ) (count : Nat)
    (randType : Nat → Nat) (randPos : Nat → Position) (s : SessionState) (dt : ℚ)
    (i : Nat) (p : Player)
    (hp : s.players[i]? = some p)
    (hspeed : p.dog.speed = ⟨0, 0⟩)
    (hstay : p.idle_time + dt < t) :
    ∃ q ∈ (UpdateState m t count randType randPos s dt).1.players,
      q.token = p.token ∧ q.dog.position = p.dog.position ∧
      q.dog.previous_position = p.dog.position ∧ q.bag = p.bag ∧ q.score = p.score := by
  have hEPS : (0 : ℚ) < EPS := by
    unfold EPS
    norm_num
  -- the player after the three per-player phases
  have hidle : |p.dog.speed.vx| < EPS ∧ |p.dog.speed.vy| < EPS := by
    rw [hspeed]
    constructor <;> simpa using hEPS
  have h1 : tickTimers dt p =
      { p with play_time := p.play_time + dt, idle_time := p.idle_time + dt } := by
    unfold tickTimers
    rw [if_pos hidle]
  have h2 : snapshotPrev (tickTimers dt p) =
      { p with
          play_time := p.play_time + dt,
          idle_time := p.idle_time + dt,
          dog := { p.dog with previous_position := p.dog.position } } := by
    rw [h1]
    unfold snapshotPrev
    rfl
  have hnmov : ¬(({ p.dog with previous_position := p.dog.position } : Dog).IsMoving ∨
      |({ p.dog with previous_position := p.dog.position } : Dog).speed.vx| > EPS ∨
      |({ p.dog with previous_position := p.dog.position } : Dog).speed.vy| > EPS) := by
    unfold Dog.IsMoving
    dsimp only
    rw [hspeed]
    push_neg
    refine ⟨?_, ?_, ?_⟩
    · intro hvx
      simp at hvx
    · simpa using le_of_lt hEPS
    · simpa using le_of_lt hEPS
  have h3 : movePhase m dt (snapshotPrev (tickTimers dt p)) =
      { p with
          play_time := p.play_time + dt,
          idle_time := p.idle_time + dt,
          dog := { p.dog with previous_position := p.dog.position } } := by
    rw [h2]
    unfold movePhase
    rw [if_neg hnmov]
  -- position of the phase-3 player in the list
  have hmap : (((s.players.map (tickTimers dt)).map snapshotPrev).map
      (movePhase m dt))[i]? = some (movePhase m dt (snapshotPrev (tickTimers dt p))) := by
    simp only [List.getElem?_map, hp, Option.map_some']
  -- no event addresses slot i
  have hnoev : ∀ e ∈ allGameEvents m.offices
      (((s.players.map (tickTimers dt)).map snapshotPrev).map (movePhase m dt))
      (s.loots ++ spawnLoots m randType randPos s.next_loot_id count),
      e.gatherer_id ≠ i := by
    intro e he hei
    obtain ⟨g, hg, hmove⟩ := allGameEvents_gatherer_moving _ _ _ e he
    rw [hei] at hg
    rw [List.getElem?_map, hmap, Option.map_some'] at hg
    injection hg with hg
    apply hmove
    rw [← hg]
    unfold gathererOfPlayer
    rw [h3]
  -- the collision fold leaves the player alone
  have hcoll : (HandleCollisions m.offices
      (((s.players.map (tickTimers dt)).map snapshotPrev).map (movePhase m dt))
      (s.loots ++ spawnLoots m randType randPos s.next_loot_id count)).1[i]? =
        some (movePhase m dt (snapshotPrev (tickTimers dt p))) := by
    unfold HandleCollisions
    dsimp only
    rw [processEvents_getElem_ne _ i _ _ hnoev]
    exact hmap
  -- the survivor filter keeps the player
  refine ⟨movePhase m dt (snapshotPrev (tickTimers dt p)), ?_, ?_, ?_, ?_, ?_, ?_⟩
  · unfold UpdateState
    dsimp only
    rw [retire_eq]
    dsimp only
    rw [List.mem_filter]
    refine ⟨List.getElem?_mem hcoll, ?_⟩
    rw [h3]
    simpa using hstay
  · rw [h3]
  · rw [h3]
  · rw [h3]
  · rw [h3]
  · rw [h3]

/-- C10 witness: the stationary player of the concrete session survives the
tick with position, sweep, bag and score unchanged. -/
theorem stationary_player_unchanged_witness :
    c10Session.players[0]? = some c10Player ∧
      c10Player.dog.speed = ⟨0, 0⟩ ∧
      c10Player.idle_time + 1 < 60 ∧
      ∃ q ∈ (UpdateState cornerMap 60 0 (fun _ => 0) (fun _ => ⟨0, 0⟩)
          c10Session 1).1.players,
        q.token = c10Player.token ∧ q.dog.position = c10Player.dog.position ∧
        q.dog.previous_position = c10Player.dog.position ∧
        q.bag = c10Player.bag ∧ q.score = c10Player.score :=
  ⟨of_decide_eq_true (by with_unfolding_all rfl),
   of_decide_eq_true (by with_unfolding_all rfl),
   of_decide_eq_true (by with_unfolding_all rfl),
   stationary_player_unchanged cornerMap 60 0 (fun _ => 0) (fun _ => ⟨0, 0⟩)
     c10Session 1 0 c10Player
     (of_decide_eq_true (by with_unfolding_all rfl))
     (of_decide_eq_true (by with_unfolding_all rfl))
     (of_decide_eq_true (by with_unfolding_all rfl))⟩

/-- A loot survives serialize/deserialize with its position rounded. -/
theorem DeserializeLoot_SerializeLoot (l : Loot) :
    DeserializeLoot (SerializeLoot l) = roundTripLoot l := rfl

/-- Restoring a serialized bag through AddToBag reproduces it (rounded)
whenever it fits the capacity, one append at a time. -/
theorem restore_bag :
    ∀ (ls : List Loot) (pl : Player),
      pl.bag.length + ls.length ≤ pl.bag_capacity →
      (ls.map SerializeLoot).foldl (fun q s => q.AddToBag (DeserializeLoot s)) pl =
        { pl with bag := pl.bag ++ ls.map roundTripLoot } := by
  intro ls
  induction ls with
  | nil =>
    intro pl h
    simp only [List.map_nil, List.foldl_nil, List.append_nil]
  | cons l rest ih =>
    intro pl h
    simp only [List.map_cons, List.foldl_cons]
    have hlen : pl.bag.length < pl.bag_capacity := by
      simp only [List.length_cons] at h
      omega
    have hadd : pl.AddToBag (DeserializeLoot (SerializeLoot l)) =
        { pl with bag := pl.bag ++ [roundTripLoot l] } := by
      unfold Player.AddToBag
      rw [if_pos hlen, DeserializeLoot_SerializeLoot]
    rw [hadd, ih]
    · simp only [List.map_cons, List.append_assoc, List.singleton_append]
    · simp only [List.length_append, List.length_cons, List.length_nil] at h ⊢
      omega

/-- A player survives serialize/deserialize with coordinates rounded, the
unserialized previous position and timers reset, and everything the
snapshot carries (id, token, score, capacity, bag, dog fields) intact. -/
theorem DeserializePlayer_SerializePlayer (p : Player) (h : bagInv p) :
    DeserializePlayer (SerializePlayer p) = roundTripPlayer p := by
  unfold DeserializePlayer SerializePlayer
  dsimp only
  rw [restore_bag p.bag _ ?_]
  · unfold mkPlayer roundTripPlayer DeserializeDog SerializeDog
    dsimp only
    rw [zero_add, List.nil_append]
  · unfold mkPlayer
    dsimp only
    simp only [List.length_nil]
    unfold bagInv at h
    omega

/-- C9: deserializing the serialized session into a game that holds the
session's map (and no prior session for it) returns a session with the same
id (sessions are created with id map_id + "_session", which
GetOrCreateSession reproduces), the same map id and next_loot_id, the same
players — id, token, score, bag capacity, bag contents and serialized dog
state, with coordinates rounded to 6 decimals — in the same order, and the
same live loots (rounded) in the same order. -/
theorem SerializeDeserializeSession_roundtrip (maps : List String) (s : SessionState)
    (hid : s.id = s.map_id ++ "_session") (hmap : s.map_id ∈ maps)
    (hbag : ∀ p ∈ s.players, bagInv p) :
    DeserializeSession maps (SerializeSession s) =
      some { s with players := s.players.map roundTripPlayer,
                    loots := s.loots.map roundTripLoot } := by
  unfold DeserializeSession SerializeSession
  dsimp only
  rw [if_pos hmap]
  congr 1
  have hplayers : (s.players.map SerializePlayer).map DeserializePlayer =
      s.players.map roundTripPlayer := by
    rw [List.map_map]
    apply List.map_congr_left
    intro p hp
    exact DeserializePlayer_SerializePlayer p (hbag p hp)
  have hloots : (s.loots.map SerializeLoot).map DeserializeLoot =
      s.loots.map roundTripLoot := by
    rw [List.map_map]
    rfl
  rw [hplayers, hloots, ← hid]

/-- C9 witness: the concrete session round-trips. -/
theorem SerializeDeserializeSession_roundtrip_witness :
    c10Session.id = c10Session.map_id ++ "_session" ∧
      c10Session.map_id ∈ ["m1"] ∧
      (∀ p ∈ c10Session.players, bagInv p) ∧
      DeserializeSession ["m1"] (SerializeSession c10Session) =
        some { c10Session with
                players := c10Session.players.map roundTripPlayer,
                loots := c10Session.loots.map roundTripLoot } :=
  ⟨rfl, of_decide_eq_true (by with_unfolding_all rfl),
   of_decide_eq_true (by with_unfolding_all rfl),
   SerializeDeserializeSession_roundtrip ["m1"] c10Session rfl
     (of_decide_eq_true (by with_unfolding_all rfl))
     (of_decide_eq_true (by with_unfolding_all rfl))⟩

end GameModel
